import Mathlib

/-!
Verification of the wayback-machine page downloader
(`utils.py`, `config.py`, `downloader.py`).

Python strings are embedded as `List Char`.  Each definition mirrors one
function of the source; external collaborators (the HTTP transport, the
`BeautifulSoup` markup parser, `mimetypes`, the filesystem) are abstracted
as oracle parameters, exactly at the interface the source calls them.
-/

namespace Wayback

/-- Character list of a string literal (Python `str` values). -/
def chars (s : String) : List Char := s.data

/-- Python `s.startswith(p)` for a single pattern. -/
def startsWith : List Char → List Char → Bool
  | [], _ => true
  | _ :: _, [] => false
  | a :: p, b :: s => decide (a = b) && startsWith p s

@[simp] theorem startsWith_nil (s : List Char) : startsWith [] s = true := rfl

@[simp] theorem startsWith_cons_nil (a : Char) (p : List Char) :
    startsWith (a :: p) [] = false := rfl

@[simp] theorem startsWith_cons_cons (a b : Char) (p s : List Char) :
    startsWith (a :: p) (b :: s) = (decide (a = b) && startsWith p s) := rfl

/-- Python `sub in s` (substring containment test). -/
def containsSub (pat : List Char) : List Char → Bool
  | [] => pat.isEmpty
  | s@(_ :: cs) => startsWith pat s || containsSub pat cs

@[simp] theorem containsSub_cons (pat : List Char) (c : Char) (cs : List Char) :
    containsSub pat (c :: cs) = (startsWith pat (c :: cs) || containsSub pat cs) := rfl

/-! ### The regular expression `/web/\d+/(https?://)?(.+)` of `clean_url`

`re.search` semantics: scan left to right for the first position where the
pattern matches; `\d+` is a greedy digit run that must be followed by `/`;
the optional group prefers `https://`, then `http://`, then nothing, each
choice requiring the final greedy `(.+)` (one or more non-newline
characters) to be nonempty.  Only group 2 is consumed by the source. -/

/-- Greedy `(.+)`: the (nonempty) run of characters up to a newline. -/
def dotPlus (s : List Char) : Option (List Char) :=
  match s with
  | [] => none
  | c :: _ => if c = '\n' then none else some (s.takeWhile (fun c => c ≠ '\n'))

/-- Match `(https?://)?(.+)` with backtracking, returning group 2. -/
def optSchemeTail (s : List Char) : Option (List Char) :=
  if startsWith (chars "https://") s then
    match dotPlus (s.drop 8) with
    | some g => some g
    | none => dotPlus s
  else if startsWith (chars "http://") s then
    match dotPlus (s.drop 7) with
    | some g => some g
    | none => dotPlus s
  else dotPlus s

/-- Attempt the whole pattern anchored at the head of `s`, returning group 2. -/
def reMatchAt (s : List Char) : Option (List Char) :=
  if startsWith (chars "/web/") s then
    let s1 := s.drop 5
    let ds := s1.takeWhile Char.isDigit
    if ds.isEmpty then none
    else
      match s1.drop ds.length with
      | '/' :: s3 => optSchemeTail s3
      | _ => none
  else none

/-- `re.search`: first position (left to right) where the pattern matches. -/
def reSearch (s : List Char) : Option (List Char) :=
  match s with
  | [] => none
  | _ :: cs =>
    match reMatchAt s with
    | some g => some g
    | none => reSearch cs

/-- `utils.clean_url` (utils.py lines 33-63): strip archive.org components. -/
def clean_url (url : List Char) : Option (List Char) :=
  if url.isEmpty then none
  else if startsWith (chars "data:") url then some url
  else if containsSub (chars "web.archive.org/web/") url then
    match reSearch url with
    | some cleaned =>
      if startsWith (chars "http://") cleaned || startsWith (chars "https://") cleaned then
        some cleaned
      else some (chars "http://" ++ cleaned)
    | none =>
      if startsWith (chars "http://") url || startsWith (chars "https://") url then some url
      else some (chars "http://" ++ url)
  else
    if startsWith (chars "http://") url || startsWith (chars "https://") url then some url
    else some (chars "http://" ++ url)

/-! ### Model of `urllib.parse` (`urlsplit`, `urlparse`, `urljoin`)

The source resolves and splits URLs exclusively through the Python standard
library (`urlparse`, `urljoin`); these definitions transcribe the CPython
`urllib.parse` algorithms for those two entry points (scheme detection with
a leading alphabetic character, netloc after `//` up to a `/?#` delimiter,
fragment then query split, `;`-parameter split on the last path segment,
and RFC-3986-style segment resolution in `urljoin`). -/

/-- Characters permitted in a URL scheme. -/
def isSchemeChar (c : Char) : Bool :=
  c.isAlpha || c.isDigit || c = '+' || c = '-' || c = '.'

/-- Python `str.lower` (ASCII as used on schemes). -/
def pyLower (s : List Char) : List Char := s.map Char.toLower

/-- Python `s.find(c, start)` as an optional index. -/
def pyFind (c : Char) (s : List Char) (start : Nat) : Option Nat :=
  match (s.drop start).findIdx? (fun x => x = c) with
  | some k => some (start + k)
  | none => none

/-- Result of `urllib.parse.urlsplit`. -/
structure SplitUrl where
  scheme : List Char
  netloc : List Char
  path : List Char
  query : List Char
  fragment : List Char
deriving DecidableEq

/-- `urllib.parse.urlsplit(url, defaultScheme)`. -/
def pyUrlsplit (url : List Char) (defaultScheme : List Char) : SplitUrl :=
  let schemeRest : List Char × List Char :=
    match url.findIdx? (fun c => c = ':') with
    | some i =>
      if 0 < i ∧ (url.headD ' ').isAlpha ∧ (url.take i).all isSchemeChar then
        (pyLower (url.take i), url.drop (i + 1))
      else (defaultScheme, url)
    | none => (defaultScheme, url)
  let scheme := schemeRest.1
  let rest := schemeRest.2
  let netlocRest : List Char × List Char :=
    if startsWith (chars "//") rest then
      let nl := (rest.drop 2).takeWhile (fun c => ¬(c = '/' ∨ c = '?' ∨ c = '#'))
      (nl, (rest.drop 2).drop nl.length)
    else ([], rest)
  let netloc := netlocRest.1
  let fragSplit : List Char × List Char :=
    match netlocRest.2.findIdx? (fun c => c = '#') with
    | some i => (netlocRest.2.take i, netlocRest.2.drop (i + 1))
    | none => (netlocRest.2, [])
  let querySplit : List Char × List Char :=
    match fragSplit.1.findIdx? (fun c => c = '?') with
    | some i => (fragSplit.1.take i, fragSplit.1.drop (i + 1))
    | none => (fragSplit.1, [])
  ⟨scheme, netloc, querySplit.1, querySplit.2, fragSplit.2⟩

/-- CPython `urllib.parse._splitparams`: split `;`-parameters off the last
path segment. -/
def splitParams (p : List Char) : List Char × List Char :=
  let found :=
    if p.contains '/' then
      pyFind ';' p (p.length - 1 - ((p.reverse.findIdx? (fun x => x = '/')).getD 0))
    else pyFind ';' p 0
  match found with
  | some i => (p.take i, p.drop (i + 1))
  | none => (p, [])

/-- Result of `urllib.parse.urlparse`. -/
structure ParseUrl where
  scheme : List Char
  netloc : List Char
  path : List Char
  params : List Char
  query : List Char
  fragment : List Char
deriving DecidableEq

/-- `urllib.parse.urlparse(url, defaultScheme)`. -/
def pyUrlparse (url : List Char) (defaultScheme : List Char) : ParseUrl :=
  let s := pyUrlsplit url defaultScheme
  let pp := if s.path.contains ';' then splitParams s.path else (s.path, [])
  ⟨s.scheme, s.netloc, pp.1, pp.2, s.query, s.fragment⟩

/-- `urllib.parse.urlunsplit`. -/
def pyUrlunsplit (u : SplitUrl) : List Char :=
  let url0 := u.path
  let url1 :=
    if ¬u.netloc.isEmpty ∨ startsWith (chars "//") url0 then
      chars "//" ++ u.netloc ++
        (if ¬url0.isEmpty ∧ ¬startsWith (chars "/") url0 then chars "/" ++ url0 else url0)
    else url0
  let url2 := if ¬u.scheme.isEmpty then u.scheme ++ chars ":" ++ url1 else url1
  let url3 := if ¬u.query.isEmpty then url2 ++ chars "?" ++ u.query else url2
  if ¬u.fragment.isEmpty then url3 ++ chars "#" ++ u.fragment else url3

/-- `urllib.parse.urlunparse`. -/
def pyUrlunparse (u : ParseUrl) : List Char :=
  let url := if ¬u.params.isEmpty then u.path ++ chars ";" ++ u.params else u.path
  pyUrlunsplit ⟨u.scheme, u.netloc, url, u.query, u.fragment⟩

/-- Schemes with RFC-3986 relative-reference semantics (CPython
`urllib.parse.uses_relative`). -/
def uses_relative : List (List Char) :=
  [chars "", chars "ftp", chars "http", chars "gopher", chars "nntp", chars "imap",
   chars "wais", chars "file", chars "https", chars "shttp", chars "mms",
   chars "prospero", chars "rtsp", chars "rtspu", chars "sftp", chars "svn",
   chars "svn+ssh", chars "ws", chars "wss"]

/-- Schemes carrying a network location (CPython `urllib.parse.uses_netloc`). -/
def uses_netloc : List (List Char) :=
  [chars "", chars "ftp", chars "http", chars "gopher", chars "nntp", chars "telnet",
   chars "imap", chars "wais", chars "file", chars "mms", chars "https", chars "shttp",
   chars "snews", chars "prospero", chars "rtsp", chars "rtspu", chars "rsync",
   chars "svn", chars "svn+ssh", chars "sftp", chars "nfs", chars "git",
   chars "git+ssh", chars "ws", chars "wss"]

/-- `segments[1:-1] = filter(None, segments[1:-1])` of CPython `urljoin`. -/
def filterMiddle : List (List Char) → List (List Char)
  | [] => []
  | [x] => [x]
  | x :: rest => x :: (rest.dropLast.filter (fun s => ¬s.isEmpty) ++ rest.drop (rest.length - 1))

/-- `urllib.parse.urljoin(base, url)` (CPython algorithm). -/
def pyUrljoin (base url : List Char) : List Char :=
  if base.isEmpty then url
  else if url.isEmpty then base
  else
    let b := pyUrlparse base []
    let u := pyUrlparse url b.scheme
    if u.scheme ≠ b.scheme ∨ ¬uses_relative.contains u.scheme then url
    else if uses_netloc.contains u.scheme ∧ ¬u.netloc.isEmpty then pyUrlunparse u
    else
      let netloc := if uses_netloc.contains u.scheme then b.netloc else u.netloc
      if u.path.isEmpty ∧ u.params.isEmpty then
        let query := if u.query.isEmpty then b.query else u.query
        pyUrlunparse ⟨u.scheme, netloc, b.path, b.params, query, u.fragment⟩
      else
        let base_parts0 := List.splitOn '/' b.path
        let base_parts :=
          if base_parts0.getLast? ≠ some [] then base_parts0.dropLast else base_parts0
        let segments :=
          if startsWith (chars "/") u.path then List.splitOn '/' u.path
          else filterMiddle (base_parts ++ List.splitOn '/' u.path)
        let resolved := segments.foldl (fun acc seg =>
          if seg = chars ".." then acc.dropLast
          else if seg = chars "." then acc
          else acc ++ [seg]) []
        let resolved2 :=
          if segments.getLast? = some (chars "..") ∨ segments.getLast? = some (chars ".") then
            resolved ++ [[]]
          else resolved
        let joined := List.intercalate (chars "/") resolved2
        pyUrlunparse ⟨u.scheme, netloc, if joined.isEmpty then chars "/" else joined,
          u.params, u.query, u.fragment⟩

/-! ### The remaining `utils.py` functions -/

/-- `utils.safe_url_join` (utils.py lines 10-18). -/
def safe_url_join (base url : List Char) : Option (List Char) :=
  if base.isEmpty || url.isEmpty then none else some (pyUrljoin base url)

/-- `utils.get_base_url` (utils.py lines 21-30). -/
def get_base_url (url : List Char) : Option (List Char) :=
  if url.isEmpty then none
  else
    let p := pyUrlparse url []
    if ¬p.scheme.isEmpty ∧ ¬p.netloc.isEmpty then some (p.scheme ++ chars "://" ++ p.netloc)
    else none

/-- Python `s.lstrip(c)` for one strip character. -/
def pyLstripChar (c : Char) (s : List Char) : List Char := s.dropWhile (fun x => x = c)

/-- Python `s.strip(c)` for one strip character. -/
def pyStripChar (c : Char) (s : List Char) : List Char :=
  (((s.dropWhile (fun x => x = c)).reverse).dropWhile (fun x => x = c)).reverse

/-- Whether `os.path.splitext(p)[1]` is nonempty: the last `/`-segment,
with its leading dots ignored, still contains a dot. -/
def splitextHasExt (p : List Char) : Bool :=
  (((List.splitOn '/' p).getLastD []).dropWhile (fun c => c = '.')).contains '.'

/-- Model of `mimetypes.guess_extension`, restricted to a finite table of
common content types; the stdlib returns `None` for unmapped types. -/
def mimetypes_guess_extension (ct : List Char) : Option (List Char) :=
  if ct = chars "text/html" then some (chars ".html")
  else if ct = chars "text/css" then some (chars ".css")
  else if ct = chars "image/png" then some (chars ".png")
  else if ct = chars "image/jpeg" then some (chars ".jpg")
  else if ct = chars "text/javascript" then some (chars ".js")
  else none

/-- `utils.get_asset_path` (utils.py lines 66-90), parameterised by the
`mimetypes.guess_extension` collaborator.  `os.path.join('assets', path)` is
`"assets/" ++ path` because `path` never begins with `/` after the lstrip. -/
def get_asset_path (guessExt : List Char → Option (List Char))
    (url contentType : List Char) : Option (List Char) :=
  if url.isEmpty then none
  else
    let path0 := pyLstripChar '/' (pyUrlparse url []).path
    let path :=
      if path0.isEmpty then chars "index.html"
      else if splitextHasExt path0 then path0
      else if ¬contentType.isEmpty then
        match guessExt contentType with
        | some ext => path0 ++ ext
        | none => path0
      else path0 ++ chars ".html"
    some (chars "assets/" ++ path)

/-- `os.path.join` for two components. -/
def pyPathJoin (a b : List Char) : List Char :=
  if startsWith (chars "/") b then b
  else if a.isEmpty then b
  else if a.getLast? = some '/' then a ++ b
  else a ++ chars "/" ++ b

/-- `utils.save_to_file` (utils.py lines 93-107); the filesystem write is the
oracle `fs`, applied to the joined target path. -/
def save_to_file (fs : List Char → Bool) (content basePath relPath : List Char) : Bool :=
  if content.isEmpty || basePath.isEmpty || relPath.isEmpty then false
  else fs (pyPathJoin basePath relPath)

/-- OS-level interpretation of `.` and `..` segments when a written path is
resolved by the filesystem (used to state the path-traversal claim). -/
def resolveSegs (segs : List (List Char)) : List (List Char) :=
  segs.foldl (fun acc s =>
    if s = chars ".." then acc.dropLast
    else if s = chars "." then acc
    else acc ++ [s]) []

/-! ### `downloader.py`: the `WaybackDownloader` pipeline

The transport (`requests` session), the markup parser (`BeautifulSoup`),
`mimetypes` and the filesystem are external collaborators; they enter as the
oracle fields of `Env`.  A parsed document is the flat sequence of its
elements (`find_all` views), each with a tag, an attribute list and its
`element.string` text. -/

/-- One parsed markup element. -/
structure Elem where
  tag : List Char
  attrs : List (List Char × List Char)
  text : Option (List Char)
deriving DecidableEq

/-- `element.get(attr)`. -/
def getAttr (e : Elem) (k : List Char) : Option (List Char) :=
  (e.attrs.find? (fun kv => kv.1 == k)).map (fun kv => kv.2)

/-- `element[attr] = v`. -/
def setAttr (e : Elem) (k v : List Char) : Elem :=
  if (e.attrs.find? (fun kv => kv.1 == k)).isSome then
    ⟨e.tag, e.attrs.map (fun kv => if kv.1 == k then (kv.1, v) else kv), e.text⟩
  else ⟨e.tag, e.attrs ++ [(k, v)], e.text⟩

/-- In-place mutation of the element at one document position. -/
def updateAt : List Elem → Nat → (Elem → Elem) → List Elem
  | [], _, _ => []
  | e :: es, 0, f => f e :: es
  | e :: es, n + 1, f => e :: updateAt es n f

/-- An HTTP response as the source consumes it (`response.content`,
`response.headers['content-type']`). -/
structure Resp where
  content : List Char
  contentType : List Char
deriving DecidableEq

/-- External collaborators of the downloader. -/
structure Env where
  transport : List Char → Option Resp
  guessExt : List Char → Option (List Char)
  fs : List Char → Bool
  parse : List Char → List Elem
  serialize : List Elem → Option (List Char)
  navAnchors : List Char → List (List Char)
  anchors : List Char → List (List Char)
  output_dir : List Char

/-- `config.ASSET_TAGS` (config.py lines 24-31), in dict insertion order. -/
def ASSET_TAGS : List (List Char × List (List Char)) :=
  [(chars "img", [chars "src", chars "data-src"]),
   (chars "script", [chars "src"]),
   (chars "link", [chars "href"]),
   (chars "audio", [chars "src"]),
   (chars "video", [chars "src"]),
   (chars "source", [chars "src"])]

/-- The skip list for asset attribute values (downloader.py line 164). -/
def assetUrlSkipped (u : List Char) : Bool :=
  startsWith (chars "data:") u || startsWith (chars "javascript:") u ||
  startsWith (chars "#") u || startsWith (chars "mailto:") u || startsWith (chars "tel:") u

/-- The skip list for anchor hrefs (downloader.py lines 183, 229, 302). -/
def hrefSkipped (u : List Char) : Bool :=
  startsWith (chars "javascript:") u || startsWith (chars "mailto:") u ||
  startsWith (chars "tel:") u || startsWith (chars "#") u

/-- `WaybackDownloader.get_wayback_url` (downloader.py lines 37-48). -/
def get_wayback_url (url timestamp : List Char) : Option (List Char) :=
  if url.isEmpty || timestamp.isEmpty then none
  else
    match clean_url url with
    | none => none
    | some cu => some (chars "https://web.archive.org/web/" ++ timestamp ++ chars "/" ++ cu)

/-- `WaybackDownloader.download_with_retry` (downloader.py lines 81-93); the
retry policy lives inside the transport collaborator. -/
def download_with_retry (env : Env) (url : List Char) : Option Resp :=
  if url.isEmpty then none else env.transport url

/-- `self.processed_assets` plus an instrumentation log of the asset URLs for
which a transport fetch was attempted. -/
structure AssetState where
  processed : List (List Char)
  fetchLog : List (List Char)
deriving DecidableEq

/-- `WaybackDownloader.download_asset` (downloader.py lines 95-126).  The
asset URL is claimed in `processed` before any fetch; reaching the transport
appends the asset URL to `fetchLog`. -/
def download_asset (env : Env) (st : AssetState) (url timestamp basePath : List Char) :
    Option (List Char) × AssetState :=
  if url.isEmpty || st.processed.contains url then (none, st)
  else
    let st1 : AssetState := ⟨url :: st.processed, st.fetchLog⟩
    match get_wayback_url url timestamp with
    | none => (none, st1)
    | some wayback_url =>
      let st2 : AssetState := ⟨st1.processed, url :: st1.fetchLog⟩
      match download_with_retry env wayback_url with
      | none => (none, st2)
      | some resp =>
        let contentType := resp.contentType.takeWhile (fun c => c ≠ ';')
        match get_asset_path env.guessExt url contentType with
        | none => (none, st2)
        | some assetPath =>
          if save_to_file env.fs resp.content basePath assetPath then (some assetPath, st2)
          else (none, st2)

/-- Removal of archive-injected elements (downloader.py lines 150-153). -/
def stripArchiveElems (doc : List Elem) : List Elem :=
  doc.filter (fun e =>
    ¬((e.tag == chars "script" || e.tag == chars "style" || e.tag == chars "link" ||
        e.tag == chars "iframe") &&
      (match e.text with
       | some s => containsSub (chars "archive.org") s
       | none => false)))

/-- The (element index, attribute, joined absolute URL) fetches submitted to
the executor, in submission order: tags in `ASSET_TAGS` order, elements in
document order, attributes in declared order (downloader.py lines 156-170). -/
def collectAssetJobs (doc : List Elem) (base_url : List Char) :
    List (Nat × List Char × List Char) :=
  ASSET_TAGS.foldl (fun acc ta =>
    doc.enum.foldl (fun acc2 ie =>
      if ie.2.tag == ta.1 then
        ta.2.foldl (fun acc3 attr =>
          match getAttr ie.2 attr with
          | some v =>
            if ¬v.isEmpty ∧ ¬assetUrlSkipped v then
              match clean_url v with
              | some cu =>
                match safe_url_join base_url cu with
                | some fu => acc3 ++ [(ie.1, attr, fu)]
                | none => acc3
              | none => acc3
            else acc3
          | none => acc3) acc2
      else acc2) acc) []

/-- Sequential execution of the submitted asset fetches (the bounded pool's
completion order is irrelevant; the shared `AssetState` is threaded in
submission order). -/
def runAssetJobs (env : Env) (st : AssetState) (timestamp basePath : List Char) :
    List (Nat × List Char × List Char) →
      List (Nat × List Char × Option (List Char)) × AssetState
  | [] => ([], st)
  | j :: js =>
    let r := download_asset env st j.2.2 timestamp basePath
    let rest := runAssetJobs env r.2 timestamp basePath js
    ((j.1, j.2.1, r.1) :: rest.1, rest.2)

/-- Rewriting the attributes of successfully fetched assets
(downloader.py lines 172-178): failures leave the attribute untouched. -/
def applyAssetResults (doc : List Elem) :
    List (Nat × List Char × Option (List Char)) → List Elem
  | [] => doc
  | r :: rs =>
    applyAssetResults
      (match r.2.2 with
       | some newPath =>
         if ¬newPath.isEmpty then updateAt doc r.1 (fun e => setAttr e r.2.1 newPath) else doc
       | none => doc) rs

/-- Anchor rewriting (downloader.py lines 180-188). -/
def fixAnchors (doc : List Elem) (base_url : List Char) : List Elem :=
  (doc.enum.filter (fun ie => ie.2.tag == chars "a" && (getAttr ie.2 (chars "href")).isSome)).foldl
    (fun d ie =>
      match getAttr ie.2 (chars "href") with
      | some href =>
        if ¬href.isEmpty ∧ ¬hrefSkipped href then
          match clean_url href with
          | some ch =>
            match safe_url_join base_url ch with
            | some ju => updateAt d ie.1 (fun e => setAttr e (chars "href") ju)
            | none => d
          | none => d
        else d
      | none => d) doc

/-- `WaybackDownloader.process_html` up to serialization (downloader.py
lines 128-189): the mutated document and the threaded asset state. -/
def process_html_doc (env : Env) (st : AssetState)
    (content timestamp basePath original_url : List Char) :
    Option (List Elem) × AssetState :=
  if content.isEmpty || timestamp.isEmpty || basePath.isEmpty || original_url.isEmpty then
    (none, st)
  else
    let soup := env.parse content
    match get_base_url original_url with
    | none => (none, st)
    | some base_url =>
      let soup1 := stripArchiveElems soup
      let jobs := collectAssetJobs soup1 base_url
      let rs := runAssetJobs env st timestamp basePath jobs
      (some (fixAnchors (applyAssetResults soup1 rs.1) base_url), rs.2)

/-- `WaybackDownloader.process_html` (downloader.py lines 128-198),
serialization included. -/
def process_html (env : Env) (st : AssetState)
    (content timestamp basePath original_url : List Char) :
    Option (List Char) × AssetState :=
  match process_html_doc env st content timestamp basePath original_url with
  | (none, st') => (none, st')
  | (some doc, st') => (env.serialize doc, st')

/-- `WaybackDownloader.get_menu_links` (downloader.py lines 200-236); the CSS
navigation-selector queries are the collaborator `env.navAnchors`, yielding
the hrefs found inside navigation regions. -/
def get_menu_links (env : Env) (html base_url : List Char) : List (List Char) :=
  (env.navAnchors html).foldl (fun acc href =>
    if ¬href.isEmpty ∧ ¬hrefSkipped href then
      match clean_url href with
      | some ch =>
        match safe_url_join base_url ch with
        | some fu => if acc.contains fu then acc else acc ++ [fu]
        | none => acc
      | none => acc
    else acc) []

/-- Crawl state: the shared `visited` set, the threaded asset state, and an
instrumentation log of the pages successfully persisted. -/
structure CrawlState where
  visited : List (List Char)
  persisted : List (List Char)
  asset : AssetState
deriving DecidableEq

/-- `WaybackDownloader.download_page` (downloader.py lines 238-315).

The Python recursion is bounded by the entry guard `depth > self.max_depth`;
here `gas = max_depth + 1 - depth`, so the guard is `gas = 0`, the code's
expansion condition `depth < max_depth` is `0 < gas`, and a recursive call at
`depth + 1` passes `gas` unchanged under the successor pattern. -/
def download_page (env : Env) (timestamp : List Char) :
    Nat → List Char → CrawlState → Option (List Char) × CrawlState
  | 0, _, st => (none, st)
  | gas + 1, url, st =>
    if url.isEmpty || st.visited.contains url then (none, st)
    else
      let st1 : CrawlState := ⟨url :: st.visited, st.persisted, st.asset⟩
      match get_wayback_url url timestamp with
      | none => (none, st1)
      | some wayback_url =>
        match download_with_retry env wayback_url with
        | none => (none, st1)
        | some resp =>
          let parsedNetloc := (pyUrlparse url []).netloc
          let domain := parsedNetloc.map (fun c => if c = '.' then '_' else c)
          let full_path := pyPathJoin env.output_dir (domain ++ chars "_" ++ timestamp)
          let pr := process_html env st1.asset resp.content timestamp full_path url
          let st2 : CrawlState := ⟨st1.visited, st1.persisted, pr.2⟩
          match pr.1 with
          | none => (none, st2)
          | some processed_html =>
            let path := pyStripChar '/' (pyUrlparse url []).path
            let filename :=
              if path.isEmpty then chars "index.html"
              else (path.map (fun c => if c = '/' then '_' else c)) ++ chars ".html"
            let filepath := pyPathJoin full_path filename
            if save_to_file env.fs processed_html full_path filename then
              let st3 : CrawlState := ⟨st2.visited, url :: st2.persisted, st2.asset⟩
              if 0 < gas then
                let menu_links := get_menu_links env processed_html url
                let st4 := menu_links.foldl (fun s mu =>
                  if (pyUrlparse mu []).netloc == parsedNetloc then
                    (download_page env timestamp gas mu s).2
                  else s) st3
                let st5 := (env.anchors processed_html).foldl (fun s href =>
                  if ¬href.isEmpty ∧ ¬hrefSkipped href then
                    match clean_url href with
                    | some ch =>
                      match safe_url_join url ch with
                      | some nu =>
                        if ¬nu.isEmpty ∧ ¬menu_links.contains nu ∧
                            (pyUrlparse nu []).netloc == parsedNetloc then
                          (download_page env timestamp gas nu s).2
                        else s
                      | none => s
                    | none => s
                  else s) st4
                (some filepath, st5)
              else (some filepath, st3)
            else (none, st2)

/-- The CDX query parameters built by `get_snapshots`
(downloader.py lines 53-65). -/
def cdx_params (url from_date to_date : List Char) : List (List Char × List Char) :=
  [(chars "url", url), (chars "output", chars "json"),
   (chars "fl", chars "timestamp,original,statuscode,digest"),
   (chars "filter", chars "statuscode:200"), (chars "collapse", chars "digest")]
  ++ (if ¬from_date.isEmpty then [(chars "from", from_date)] else [])
  ++ (if ¬to_date.isEmpty then [(chars "to", to_date)] else [])

/-- `WaybackDownloader.get_snapshots` (downloader.py lines 50-79).  The CDX
endpoint is the oracle `cdx`; `none` covers transport errors, non-2xx
statuses and malformed JSON, all caught and logged by the source. -/
def get_snapshots (cdx : List (List Char × List Char) → Option (List (List (List Char))))
    (url from_date to_date : List Char) : List (List (List Char)) :=
  match cdx (cdx_params url from_date to_date) with
  | none => []
  | some results => if results.length < 2 then [] else results.drop 1


/-! ### Concrete stub environments used by the closed scenario theorems -/

/-- Transport always failing; the parser yields one image element with a
site-relative `src` (the failed-asset-fetch scenario). -/
def envAssetFail : Env :=
  ⟨fun _ => none, mimetypes_guess_extension, fun _ => true,
   fun _ => [⟨chars "img", [(chars "src", chars "/img/a.png")], none⟩],
   fun _ => some (chars "PAGE"), fun _ => [], fun _ => [], chars "out"⟩

/-- Transport always failing; the parser yields one anchor with a
site-relative `href` (the anchor-rewrite scenario). -/
def envAnchor : Env :=
  ⟨fun _ => none, mimetypes_guess_extension, fun _ => true,
   fun _ => [⟨chars "a", [(chars "href", chars "/about")], none⟩],
   fun _ => some (chars "PAGE"), fun _ => [], fun _ => [], chars "out"⟩

/-- A two-page same-host cyclic site: every page's navigation links to both
pages, so the link graph has the cycle p1 -> p2 -> p1. -/
def envCycle : Env :=
  ⟨fun _ => some ⟨chars "X", chars "text/html"⟩, mimetypes_guess_extension, fun _ => true,
   fun _ => [], fun _ => some (chars "PAGE"),
   fun _ => [chars "http://a.com/p1", chars "http://a.com/p2"], fun _ => [], chars "out"⟩

/-- A single fetchable page with no links. -/
def envPage : Env :=
  ⟨fun _ => some ⟨chars "X", chars "text/html"⟩, mimetypes_guess_extension, fun _ => true,
   fun _ => [], fun _ => some (chars "PAGE"), fun _ => [], fun _ => [], chars "out"⟩

/-! ### Helper lemmas about `startsWith` -/

theorem startsWith_self_append (l r : List Char) : startsWith l (l ++ r) = true := by
  induction l with
  | nil => rfl
  | cons a as ih => simp [ih]

theorem startsWith_isEmpty_false (a : Char) (p r : List Char)
    (h : startsWith (a :: p) r = true) : r.isEmpty = false := by
  cases r
  · simp at h
  · rfl

/-- Every non-null result of `clean_url` begins with `data:`, `http://` or
`https://` (the shape behind the spec's invariant on cleaned URLs). -/
theorem clean_url_shape (x r : List Char) (h : clean_url x = some r) :
    startsWith (chars "data:") r = true ∨ startsWith (chars "http://") r = true ∨
      startsWith (chars "https://") r = true := by
  unfold clean_url at h
  split at h
  · cases h
  split at h
  next hdata =>
    injection h with h2
    subst h2
    exact Or.inl hdata
  split at h
  · split at h
    next g hg =>
      split at h
      next hpre =>
        injection h with h2
        subst h2
        rcases Bool.or_eq_true_iff.mp hpre with hp | hp
        · exact Or.inr (Or.inl hp)
        · exact Or.inr (Or.inr hp)
      next =>
        injection h with h2
        subst h2
        exact Or.inr (Or.inl (startsWith_self_append _ _))
    next =>
      split at h
      next hpre =>
        injection h with h2
        subst h2
        rcases Bool.or_eq_true_iff.mp hpre with hp | hp
        · exact Or.inr (Or.inl hp)
        · exact Or.inr (Or.inr hp)
      next =>
        injection h with h2
        subst h2
        exact Or.inr (Or.inl (startsWith_self_append _ _))
  · split at h
    next hpre =>
      injection h with h2
      subst h2
      rcases Bool.or_eq_true_iff.mp hpre with hp | hp
      · exact Or.inr (Or.inl hp)
      · exact Or.inr (Or.inr hp)
    next =>
      injection h with h2
      subst h2
      exact Or.inr (Or.inl (startsWith_self_append _ _))

/-- C1, counterexample: on the spec's own example the embedded scheme is NOT
kept intact; the regex drops the captured scheme group and the code prefixes
`http://`, downgrading `https` to `http`. -/
theorem C1_counterexample :
    clean_url (chars "https://web.archive.org/web/20230101000000/https://example.com/x")
        = some (chars "http://example.com/x") ∧
      (some (chars "http://example.com/x") : Option (List Char))
        ≠ some (chars "https://example.com/x") := by
  constructor
  · decide
  · decide

/-- C1 (amended): for a URL embedding the archive rewrite pattern, `clean`
returns the embedded remainder with the embedded scheme group stripped and
`http://` prefixed (an `https` original is downgraded to `http`); when the
remainder lacks a scheme, `http://` is likewise prefixed. -/
theorem C1_amended (rest : List Char) (h1 : rest ≠ []) (h2 : ∀ c ∈ rest, c ≠ '\n')
    (h3 : startsWith (chars "http://") rest = false)
    (h4 : startsWith (chars "https://") rest = false) :
    clean_url (chars "https://web.archive.org/web/20230101000000/https://" ++ rest)
        = some (chars "http://" ++ rest) ∧
      clean_url (chars "https://web.archive.org/web/20230101000000/" ++ rest)
        = some (chars "http://" ++ rest) := by
  obtain ⟨c, cs, rfl⟩ := List.exists_cons_of_ne_nil h1
  have hc : c ≠ '\n' := h2 c (by simp)
  have htw : List.takeWhile (fun c => !decide (c = '\n')) cs = cs := by
    rw [List.takeWhile_eq_self_iff]
    intro a ha
    simp [h2 a (by simp [ha])]
  have hdp : dotPlus (c :: cs) = some (c :: cs) := by
    simp [dotPlus, hc, htw]
  have hOST : optSchemeTail (c :: cs) = some (c :: cs) := by
    unfold optSchemeTail
    rw [h4, h3]
    simp [hdp]
  constructor
  · simp [clean_url, chars, reSearch, reMatchAt, optSchemeTail, hdp, h3, h4]
    rintro (⟨hcE, hW⟩ | ⟨hcE, hW⟩) <;> subst hcE
    · simp [chars] at h3
      exact absurd hW (by simp [h3])
    · simp [chars] at h4
      exact absurd hW (by simp [h4])
  · simp [clean_url, chars, reSearch, reMatchAt, hOST, h3, h4]
    rintro (⟨hcE, hW⟩ | ⟨hcE, hW⟩) <;> subst hcE
    · simp [chars] at h3
      exact absurd hW (by simp [h3])
    · simp [chars] at h4
      exact absurd hW (by simp [h4])

/-- C1 amended, witness at the spec's example remainder `example.com/x`. -/
theorem C1_amended_witness :
    clean_url (chars "https://web.archive.org/web/20230101000000/https://example.com/x")
        = some (chars "http://example.com/x") ∧
      clean_url (chars "https://web.archive.org/web/20230101000000/example.com/x")
        = some (chars "http://example.com/x") :=
  C1_amended (chars "example.com/x") (by decide) (by decide) (by decide) (by decide)

/-- C2, counterexample: a URL whose embedded remainder itself contains the
archive rewrite pattern is cleaned differently a second time, so
`clean (clean x) ≠ clean x`. -/
theorem C2_counterexample :
    clean_url (chars "web.archive.org/web/1/web.archive.org/web/2/a")
        = some (chars "http://web.archive.org/web/2/a") ∧
      clean_url (chars "http://web.archive.org/web/2/a") = some (chars "http://a") ∧
      (some (chars "http://a") : Option (List Char))
        ≠ some (chars "http://web.archive.org/web/2/a") := by
  refine ⟨by decide, by decide, by decide⟩

/-- C2 (amended): `clean` is idempotent on every input whose cleaned result
does not itself contain the archive substring `web.archive.org/web/`
(nested occurrences of the rewrite pattern break idempotence). -/
theorem C2_amended (x r : List Char) (h : clean_url x = some r)
    (hn : containsSub (chars "web.archive.org/web/") r = false) :
    clean_url r = some r := by
  rcases clean_url_shape x r h with hd | hp | hp
  · have hne := startsWith_isEmpty_false 'd' _ r (by simpa [chars] using hd)
    simp [clean_url, hne, hd]
  · obtain ⟨b, s, rfl⟩ : ∃ b s, r = b :: s := by
      cases r
      · simp [chars] at hp
      · exact ⟨_, _, rfl⟩
    simp [chars] at hp hn
    obtain ⟨rfl, hp2⟩ := hp
    simp [clean_url, chars, hn, hp2]
  · obtain ⟨b, s, rfl⟩ : ∃ b s, r = b :: s := by
      cases r
      · simp [chars] at hp
      · exact ⟨_, _, rfl⟩
    simp [chars] at hp hn
    obtain ⟨rfl, hp2⟩ := hp
    simp [clean_url, chars, hn, hp2]

/-- C2 amended, witness: a schemeless input is cleaned to an `http://` URL on
which `clean` is then a fixed point. -/
theorem C2_amended_witness :
    clean_url (chars "http://example.com/a") = some (chars "http://example.com/a") :=
  C2_amended (chars "example.com/a") (chars "http://example.com/a") (by decide) (by decide)


/-! ### C3: asset fetch deduplication -/

/-- After a first call on a fresh URL, the URL is claimed in `processed`
(in every branch, the claim happens before any fetch). -/
theorem download_asset_processed_cons (env : Env) (st : AssetState)
    (url timestamp basePath : List Char)
    (hcond : (url.isEmpty || st.processed.contains url) = false) :
    ((download_asset env st url timestamp basePath).2).processed = url :: st.processed := by
  unfold download_asset
  simp only [hcond, Bool.false_eq_true, if_false]
  repeat' split
  all_goals rfl

/-- A first call appends the URL to the fetch log at most once. -/
theorem download_asset_fetchLog_cases (env : Env) (st : AssetState)
    (url timestamp basePath : List Char)
    (hcond : (url.isEmpty || st.processed.contains url) = false) :
    ((download_asset env st url timestamp basePath).2).fetchLog = st.fetchLog ∨
      ((download_asset env st url timestamp basePath).2).fetchLog = url :: st.fetchLog := by
  unfold download_asset
  simp only [hcond, Bool.false_eq_true, if_false]
  repeat' split
  all_goals first | exact Or.inl rfl | exact Or.inr rfl

/-- A call whose URL is already in `processed_assets` is a pure no-op. -/
theorem download_asset_noop_of_processed (env : Env) (st : AssetState)
    (url timestamp basePath : List Char) (h : st.processed.contains url = true) :
    download_asset env st url timestamp basePath = (none, st) := by
  have hm : url ∈ st.processed := by simpa using h
  unfold download_asset
  rw [if_pos]
  simp [hm]

/-- C3: `download_asset` claims the URL in `processed_assets` before any
fetch; a second call with the same URL is a pure no-op returning `None`, and
across the two calls at most one transport fetch of that URL is attempted. -/
theorem C3_asset_dedup (env : Env) (st : AssetState) (url timestamp basePath : List Char)
    (hu : url.isEmpty = false) (hp : st.processed.contains url = false) :
    (((download_asset env st url timestamp basePath).2).processed).contains url = true ∧
    download_asset env ((download_asset env st url timestamp basePath).2) url timestamp basePath
        = (none, (download_asset env st url timestamp basePath).2) ∧
    ((download_asset env st url timestamp basePath).2).fetchLog.count url
        ≤ st.fetchLog.count url + 1 := by
  have hcond : (url.isEmpty || st.processed.contains url) = false := by
    have hnm : url ∉ st.processed := by simpa using hp
    simp [hu, hnm]
  have hproc := download_asset_processed_cons env st url timestamp basePath hcond
  have hmem : (((download_asset env st url timestamp basePath).2).processed).contains url
      = true := by
    rw [hproc]
    simp
  refine ⟨hmem, download_asset_noop_of_processed env _ url timestamp basePath hmem, ?_⟩
  rcases download_asset_fetchLog_cases env st url timestamp basePath hcond with hf | hf
  · rw [hf]
    exact Nat.le_succ _
  · rw [hf, List.count_cons_self]

/-- C3, witness at a concrete state and environment. -/
theorem C3_asset_dedup_witness :
    (((download_asset envPage ⟨[], []⟩ (chars "http://x.com/a.png") (chars "2023")
          (chars "out")).2).processed).contains (chars "http://x.com/a.png") = true ∧
    download_asset envPage ((download_asset envPage ⟨[], []⟩ (chars "http://x.com/a.png")
          (chars "2023") (chars "out")).2) (chars "http://x.com/a.png") (chars "2023")
          (chars "out")
        = (none, (download_asset envPage ⟨[], []⟩ (chars "http://x.com/a.png") (chars "2023")
          (chars "out")).2) ∧
    ((download_asset envPage ⟨[], []⟩ (chars "http://x.com/a.png") (chars "2023")
          (chars "out")).2).fetchLog.count (chars "http://x.com/a.png")
        ≤ (⟨[], []⟩ : AssetState).fetchLog.count (chars "http://x.com/a.png") + 1 :=
  C3_asset_dedup envPage ⟨[], []⟩ (chars "http://x.com/a.png") (chars "2023") (chars "out")
    (by decide) (by decide)

/-! ### C7: asset storage path derivation -/

/-- C7, counterexample: a declared content type with no extension mapping
adds NO extension at all; the `.html` default applies only when no content
type is declared. -/
theorem C7_counterexample :
    get_asset_path mimetypes_guess_extension (chars "http://x.com/file")
        (chars "application/x-unknown") = some (chars "assets/file") ∧
      (some (chars "assets/file") : Option (List Char)) ≠ some (chars "assets/file.html") := by
  exact ⟨by decide, by decide⟩

/-- C7 (amended): an empty URL path stores as `index.html`; a path without
extension gains the mapped extension of a declared content type, gains
NOTHING when the declared content type has no mapping, and gains `.html`
only when no content type is declared; every result is rooted at
`assets/`. -/
theorem C7_amended (g : List Char → Option (List Char)) (url ct p0 : List Char)
    (hu : url.isEmpty = false) (hp : p0 = pyLstripChar '/' (pyUrlparse url []).path) :
    (p0.isEmpty = true → get_asset_path g url ct = some (chars "assets/index.html")) ∧
    (p0.isEmpty = false → splitextHasExt p0 = false → ct.isEmpty = false → g ct = none →
      get_asset_path g url ct = some (chars "assets/" ++ p0)) ∧
    (∀ e, p0.isEmpty = false → splitextHasExt p0 = false → ct.isEmpty = false → g ct = some e →
      get_asset_path g url ct = some (chars "assets/" ++ p0 ++ e)) ∧
    (p0.isEmpty = false → splitextHasExt p0 = false → ct.isEmpty = true →
      get_asset_path g url ct = some (chars "assets/" ++ p0 ++ chars ".html")) ∧
    (∀ r, get_asset_path g url ct = some r → startsWith (chars "assets/") r = true) := by
  subst hp
  refine ⟨?_, ?_, ?_, ?_, ?_⟩
  · intro h0
    simp [get_asset_path, hu, h0, chars]
  · intro h0 hext hct hg
    simp [get_asset_path, hu, h0, hext, hct, hg, chars]
  · intro e h0 hext hct hg
    simp [get_asset_path, hu, h0, hext, hct, hg, chars]
  · intro h0 hext hct
    simp [get_asset_path, hu, h0, hext, hct, chars]
  · intro r hr
    unfold get_asset_path at hr
    rw [if_neg (by simp [hu])] at hr
    injection hr with hr2
    rw [← hr2]
    exact startsWith_self_append _ _

/-- C7 amended, witness: empty path and unmapped-content-type branches. -/
theorem C7_amended_witness :
    get_asset_path mimetypes_guess_extension (chars "http://x.com") (chars "text/html")
        = some (chars "assets/index.html") ∧
      get_asset_path mimetypes_guess_extension (chars "http://x.com/data")
          (chars "application/x-unknown") = some (chars "assets/" ++ chars "data") :=
  ⟨(C7_amended mimetypes_guess_extension (chars "http://x.com") (chars "text/html")
      (chars "") (by decide) (by decide)).1 (by decide),
   (C7_amended mimetypes_guess_extension (chars "http://x.com/data")
      (chars "application/x-unknown") (chars "data") (by decide) (by decide)).2.1
      (by decide) (by decide) (by decide) (by decide)⟩

/-! ### C10: no sanitisation of parent-directory segments -/

/-- C10: `get_asset_path` keeps `..` components from the URL path, and the
path written by `save_to_file` therefore resolves outside the destination
directory's `assets/` root. -/
theorem C10_path_traversal :
    get_asset_path mimetypes_guess_extension (chars "http://x.com/../../f") (chars "text/html")
        = some (chars "assets/../../f.html") ∧
      (chars "..") ∈ List.splitOn '/' (chars "assets/../../f.html") ∧
      pyPathJoin (chars "dest") (chars "assets/../../f.html")
        = chars "dest/assets/../../f.html" ∧
      resolveSegs (List.splitOn '/' (chars "dest/assets/../../f.html")) = [chars "f.html"] ∧
      (resolveSegs (List.splitOn '/' (chars "dest/assets/../../f.html"))).head?
        ≠ some (chars "dest") := by
  refine ⟨by decide, by decide, by decide, by decide, by decide⟩

/-! ### C9: snapshot listing -/

/-- C9: `get_snapshots` strips exactly the header row and preserves the
server order; a transport/parse failure, an empty response and a header-only
response all yield the same empty sequence. -/
theorem C9_snapshots (cdx : List (List Char × List Char) → Option (List (List (List Char))))
    (url from_date to_date : List Char) :
    (cdx (cdx_params url from_date to_date) = none →
      get_snapshots cdx url from_date to_date = []) ∧
    (∀ hdr rows, cdx (cdx_params url from_date to_date) = some (hdr :: rows) →
      get_snapshots cdx url from_date to_date = rows) ∧
    (cdx (cdx_params url from_date to_date) = some [] →
      get_snapshots cdx url from_date to_date = []) := by
  refine ⟨?_, ?_, ?_⟩
  · intro h
    simp [get_snapshots, h]
  · intro hdr rows h
    cases rows with
    | nil => simp [get_snapshots, h]
    | cons r rs => simp [get_snapshots, h]
  · intro h
    simp [get_snapshots, h]

/-- C9, witness: a stub index response of one header row plus two data rows
yields exactly the two data rows in order. -/
theorem C9_snapshots_witness :
    get_snapshots (fun _ => some
        [[chars "timestamp", chars "original", chars "statuscode", chars "digest"],
         [chars "20200101000000", chars "http://example.com/", chars "200", chars "AAA"],
         [chars "20200115000000", chars "http://example.com/", chars "200", chars "BBB"]])
      (chars "example.com") (chars "20200101") (chars "20200201")
      = [[chars "20200101000000", chars "http://example.com/", chars "200", chars "AAA"],
         [chars "20200115000000", chars "http://example.com/", chars "200", chars "BBB"]] :=
  (C9_snapshots _ (chars "example.com") (chars "20200101") (chars "20200201")).2.1
    [chars "timestamp", chars "original", chars "statuscode", chars "digest"]
    [[chars "20200101000000", chars "http://example.com/", chars "200", chars "AAA"],
     [chars "20200115000000", chars "http://example.com/", chars "200", chars "BBB"]] rfl


/-! ### C6: failed asset fetches degrade gracefully -/

/-- When every transport fetch fails, `download_asset` returns `None`. -/
theorem download_asset_none_of_transport (env : Env) (st : AssetState)
    (url timestamp basePath : List Char) (htr : ∀ x, env.transport x = none) :
    (download_asset env st url timestamp basePath).1 = none := by
  unfold download_asset
  repeat' split
  all_goals first | rfl | simp_all [download_with_retry, htr]

/-- When every transport fetch fails, every executed asset job reports
`None`. -/
theorem runAssetJobs_none_of_transport (env : Env) (timestamp basePath : List Char)
    (htr : ∀ x, env.transport x = none) :
    ∀ (jobs : List (Nat × List Char × List Char)) (st : AssetState),
      ∀ r ∈ (runAssetJobs env st timestamp basePath jobs).1, r.2.2 = none := by
  intro jobs
  induction jobs with
  | nil =>
    intro st r hr
    simp [runAssetJobs] at hr
  | cons j js ih =>
    intro st r hr
    simp only [runAssetJobs] at hr
    rcases List.mem_cons.mp hr with h | h
    · subst h
      exact download_asset_none_of_transport env st j.2.2 timestamp basePath htr
    · exact ih _ r h

/-- Applying an all-`None` result list rewrites nothing. -/
theorem applyAssetResults_none (rs : List (Nat × List Char × Option (List Char)))
    (h : ∀ r ∈ rs, r.2.2 = none) : ∀ doc, applyAssetResults doc rs = doc := by
  induction rs with
  | nil => intro doc; rfl
  | cons r rs ih =>
    intro doc
    have hr : r.2.2 = none := h r (List.mem_cons_self _ _)
    have hrest : ∀ x ∈ rs, x.2.2 = none := fun x hx => h x (List.mem_cons_of_mem _ hx)
    simp only [applyAssetResults, hr]
    exact ih hrest doc

/-- C6, counterexample: when the dispatched asset fetch fails, the element's
`src` keeps its ORIGINAL value `/img/a.png` — not the cleaned-absolute value
`http://x.com/img/a.png` the claim asserts — while the page is still
serialized. -/
theorem C6_counterexample :
    (process_html_doc envAssetFail ⟨[], []⟩ (chars "X") (chars "20230101000000")
        (chars "out/x_com_20230101000000") (chars "http://x.com/page")).1
        = some [⟨chars "img", [(chars "src", chars "/img/a.png")], none⟩] ∧
      (process_html envAssetFail ⟨[], []⟩ (chars "X") (chars "20230101000000")
        (chars "out/x_com_20230101000000") (chars "http://x.com/page")).1
        = some (chars "PAGE") ∧
      clean_url (chars "/img/a.png") = some (chars "http:///img/a.png") ∧
      safe_url_join (chars "http://x.com") (chars "http:///img/a.png")
        = some (chars "http://x.com/img/a.png") ∧
      chars "/img/a.png" ≠ chars "http://x.com/img/a.png" := by
  refine ⟨by decide, by decide, by decide, by decide, by decide⟩

/-- C6 (amended): an asset reference whose dispatched fetch fails keeps its
original attribute value (the cleaned-absolute URL is used only to address
the fetch, never written back), and the page is still processed: with every
transport fetch failing, the rewriter returns the archive-stripped parse
with only its anchors rewritten. -/
theorem C6_amended (env : Env) (st : AssetState) (content ts bp orig burl : List Char)
    (htr : ∀ u, env.transport u = none)
    (hc : content.isEmpty = false) (hts : ts.isEmpty = false) (hbp : bp.isEmpty = false)
    (ho : orig.isEmpty = false) (hb : get_base_url orig = some burl) :
    (process_html_doc env st content ts bp orig).1
        = some (fixAnchors (stripArchiveElems (env.parse content)) burl) := by
  unfold process_html_doc
  rw [if_neg (by simp [hc, hts, hbp, ho]), hb]
  simp only []
  rw [applyAssetResults_none _
    (runAssetJobs_none_of_transport env ts bp htr _ _) _]

/-- C6 amended, witness at the concrete failed-fetch environment. -/
theorem C6_amended_witness :
    (process_html_doc envAssetFail ⟨[], []⟩ (chars "Y") (chars "20230101000000")
        (chars "out/x_com_20230101000000") (chars "http://x.com/page")).1
      = some (fixAnchors (stripArchiveElems (envAssetFail.parse (chars "Y")))
          (chars "http://x.com")) :=
  C6_amended envAssetFail ⟨[], []⟩ (chars "Y") (chars "20230101000000")
    (chars "out/x_com_20230101000000") (chars "http://x.com/page") (chars "http://x.com")
    (fun _ => rfl) (by decide) (by decide) (by decide) (by decide) (by decide)

/-! ### C8: anchor rewriting -/

/-- C8: rewriting a document holding `<a href="/about">` against
`original_url = "http://x.com/page"` yields `href="http://x.com/about"`:
the href is cleaned, resolved against the page's base URL, and written
back. -/
theorem C8_anchor_rewrite :
    (process_html_doc envAnchor ⟨[], []⟩ (chars "<p>") (chars "20230101000000")
        (chars "out") (chars "http://x.com/page")).1
      = some [⟨chars "a", [(chars "href", chars "http://x.com/about")], none⟩] := by
  decide


/-! ### C4 and C5: the recursive crawl -/

/-- A fold over crawl states preserves any property of `visited` preserved by
its step function. -/
theorem foldl_crawl_nodup {α : Type} (f : CrawlState → α → CrawlState)
    (hf : ∀ s a, s.visited.Nodup → ((f s a).visited).Nodup) :
    ∀ (l : List α) (s : CrawlState), s.visited.Nodup → (((l.foldl f s)).visited).Nodup := by
  intro l
  induction l with
  | nil => intro s hs; exact hs
  | cons a as ih => intro s hs; exact ih (f s a) (hf s a hs)

/-- Every page URL is entered at most once: `download_page` adds a page to
the shared `visited` set before doing anything else, so a duplicate-free
`visited` stays duplicate-free through the whole recursion. -/
theorem download_page_visited_nodup (env : Env) (ts : List Char) :
    ∀ (gas : Nat) (url : List Char) (st : CrawlState),
      st.visited.Nodup → ((download_page env ts gas url st).2.visited).Nodup := by
  intro gas
  induction gas with
  | zero => intro url st h; exact h
  | succ g ih =>
    intro url st h
    unfold download_page
    dsimp only
    split
    · exact h
    next hcond =>
      have hnm : url ∉ st.visited := by
        simp at hcond
        exact hcond.2
      have h1 : (url :: st.visited).Nodup := List.nodup_cons.mpr ⟨hnm, h⟩
      repeat' split
      all_goals try exact h1
      all_goals dsimp only
      all_goals
        apply foldl_crawl_nodup
        · intro s a hs
          repeat' split
          all_goals first | exact ih _ _ hs | exact hs
        · apply foldl_crawl_nodup
          · intro s a hs
            repeat' split
            all_goals first | exact ih _ _ hs | exact hs
          · exact h1

/-- A `download_page` call on an already-visited URL is skipped: it returns
`None` and leaves the crawl state untouched. -/
theorem download_page_skips_visited (env : Env) (ts : List Char) (gas : Nat)
    (url : List Char) (st : CrawlState) (h : st.visited.contains url = true) :
    download_page env ts gas url st = (none, st) := by
  cases gas with
  | zero => rfl
  | succ g =>
    have hm : url ∈ st.visited := by simpa using h
    unfold download_page
    rw [if_pos]
    simp [hm]

/-- C4: a crawl over any link graph (cyclic ones included) enters each page
URL at most once — `visited` stays duplicate-free — and any invocation on an
already-visited URL is a no-op; termination is by the structural depth bound
of `download_page`. -/
theorem C4_crawl_visits_once (env : Env) (ts : List Char) (gas : Nat) (url : List Char)
    (st : CrawlState) (h : st.visited.Nodup) :
    ((download_page env ts gas url st).2.visited).Nodup ∧
      (∀ v, v ∈ st.visited → download_page env ts gas v st = (none, st)) := by
  refine ⟨download_page_visited_nodup env ts gas url st h, ?_⟩
  intro v hv
  exact download_page_skips_visited env ts gas v st (by simpa using hv)

/-- C4, witness: the two-page cyclic site `p1 <-> p2`, crawled from `p1` with
depth budget 2. -/
theorem C4_crawl_visits_once_witness :
    ((download_page envCycle (chars "20230101000000") 3 (chars "http://a.com/p1")
        ⟨[], [], ⟨[], []⟩⟩).2.visited).Nodup ∧
      download_page envCycle (chars "20230101000000") 3 (chars "http://a.com/p1")
          ⟨[chars "http://a.com/p1"], [], ⟨[], []⟩⟩
        = (none, ⟨[chars "http://a.com/p1"], [], ⟨[], []⟩⟩) :=
  ⟨(C4_crawl_visits_once envCycle (chars "20230101000000") 3 (chars "http://a.com/p1")
      ⟨[], [], ⟨[], []⟩⟩ (by simp)).1,
   (C4_crawl_visits_once envCycle (chars "20230101000000") 3 (chars "http://a.com/p1")
      ⟨[chars "http://a.com/p1"], [], ⟨[], []⟩⟩ (by simp)).2 (chars "http://a.com/p1")
      (by simp)⟩

/-- With the minimal depth budget (`max_depth = 0`, i.e. gas 1), a successful
call persists exactly the root and visits exactly the root. -/
theorem download_page_one_cases (env : Env) (ts url : List Char) (st : CrawlState) :
    (download_page env ts 1 url st).1 = none ∨
      ((download_page env ts 1 url st).2.persisted = url :: st.persisted ∧
        (download_page env ts 1 url st).2.visited = url :: st.visited) := by
  unfold download_page
  dsimp only
  repeat' split
  all_goals first
    | exact Or.inl rfl
    | exact Or.inr ⟨rfl, rfl⟩
    | (exfalso; omega)

/-- C5: a crawl with `max_depth = 0` that succeeds persists exactly one page
(the root) and performs no recursive expansion — the visited set gains only
the root — and a call past the depth bound (gas 0, `depth > max_depth`) does
nothing at all. -/
theorem C5_depth_zero (env : Env) (ts url : List Char) (st : CrawlState) (fp : List Char)
    (h : (download_page env ts 1 url st).1 = some fp) :
    (download_page env ts 1 url st).2.persisted = url :: st.persisted ∧
      (download_page env ts 1 url st).2.visited = url :: st.visited ∧
      download_page env ts 0 url st = (none, st) := by
  rcases download_page_one_cases env ts url st with hn | hs
  · rw [hn] at h
    cases h
  · exact ⟨hs.1, hs.2, rfl⟩

/-- C5, witness: a concrete successful single-page crawl. -/
theorem C5_depth_zero_witness :
    (download_page envPage (chars "20230101000000") 1 (chars "http://a.com/")
        ⟨[], [], ⟨[], []⟩⟩).2.persisted = [chars "http://a.com/"] ∧
      (download_page envPage (chars "20230101000000") 1 (chars "http://a.com/")
        ⟨[], [], ⟨[], []⟩⟩).2.visited = [chars "http://a.com/"] ∧
      download_page envPage (chars "20230101000000") 0 (chars "http://a.com/")
        ⟨[], [], ⟨[], []⟩⟩ = (none, ⟨[], [], ⟨[], []⟩⟩) :=
  C5_depth_zero envPage (chars "20230101000000") (chars "http://a.com/")
    ⟨[], [], ⟨[], []⟩⟩
    (pyPathJoin (pyPathJoin (chars "out") (chars "a_com_20230101000000")) (chars "index.html"))
    (by decide)

end Wayback
